import Mathlib

/-!
Verification of the ollama-bench benchmark core: the metrics aggregator
(`ModelSummary.from_results`), the comparator (`calculate_winner`,
`calculate_performance_difference`), the generation-call error classification
(`generate`), and the scheduler (`benchmark_models` / `benchmark_single_model`)
modelled as a pure function from a scripted client oracle to an event trace
and a result.

Modelling conventions:
* Rust `f64` values are modelled as exact rationals (`ℚ`); the two
  `f64::INFINITY` / `f64::NEG_INFINITY` fold sentinels used by the aggregator
  are modelled explicitly by the `FVal` type so that the `is_infinite`
  normalisation in the source is represented faithfully.
* Machine integers (`u32`, `u64`, `i64`, `usize`) are modelled as `Nat`/`Int`;
  the one wrapping cast in the source (`i32 as u32` on token counts) is
  modelled by `u32OfInt`, and the `usize`/`u32` subtractions that would panic
  on underflow in debug builds are modelled by `checkedSub`, with a distinct
  `RunError.panicked` outcome.
* Network I/O is modelled by passing the HTTP outcome (or a per-iteration
  oracle of outcomes) as an explicit argument; progress reporting and pacing
  sleeps are modelled as an emitted event trace.
-/

/-- One generation attempt's outcome (src/types.rs `BenchmarkResult`).
The `timestamp` is an opaque clock reading, modelled as a `Nat`. -/
structure BenchmarkResult where
  model : String
  prompt : String
  timestamp : Nat
  success : Bool
  tokens_per_second : ℚ
  time_to_first_token_ms : Nat
  total_duration_ms : Nat
  prompt_tokens : Nat
  completion_tokens : Nat
  error : Option String
deriving DecidableEq

/-- Aggregated statistics for one model (src/types.rs `ModelSummary`). -/
structure ModelSummary where
  model : String
  total_tests : Nat
  success_rate : ℚ
  avg_tokens_per_second : ℚ
  min_tokens_per_second : ℚ
  max_tokens_per_second : ℚ
  avg_ttft_ms : ℚ
deriving DecidableEq

/-- Run configuration (src/types.rs `BenchmarkConfig`). -/
structure BenchmarkConfig where
  iterations : Nat
  prompt : String
  temperature : ℚ
  max_tokens : Int
  timeout_seconds : Nat
  ollama_base_url : String
deriving DecidableEq

/-- The `Default` impl for `BenchmarkConfig` in src/types.rs. -/
def BenchmarkConfig.default : BenchmarkConfig :=
  { iterations := 5
    prompt := "Write a haiku about benchmarking language models."
    temperature := 7 / 10
    max_tokens := 100
    timeout_seconds := 120
    ollama_base_url := "http://localhost:11434" }

/-- Error taxonomy (src/error.rs `BenchmarkError`). -/
inductive BenchmarkError where
  | OllamaNotRunning : BenchmarkError
  | ModelNotFound : String → BenchmarkError
  | NetworkTimeout : Nat → BenchmarkError
  | InvalidModel : String → BenchmarkError
  | ConnectionFailed : String → BenchmarkError
  | ParseError : String → BenchmarkError
  | IoError : String → BenchmarkError
  | ConfigError : String → BenchmarkError
deriving DecidableEq

/-- An `f64` value as it flows through the aggregator's min/max folds:
either a finite value or one of the two infinite sentinels. -/
inductive FVal where
  | posInf : FVal
  | negInf : FVal
  | fin : ℚ → FVal
deriving DecidableEq

/-- `f64::min` restricted to the values occurring in the aggregator
(no NaN can arise: every folded value is finite). -/
def FVal.fmin : FVal → FVal → FVal
  | .posInf, y => y
  | .negInf, _ => .negInf
  | .fin a, .posInf => .fin a
  | .fin _, .negInf => .negInf
  | .fin a, .fin b => .fin (min a b)

/-- `f64::max` restricted to the values occurring in the aggregator. -/
def FVal.fmax : FVal → FVal → FVal
  | .negInf, y => y
  | .posInf, _ => .posInf
  | .fin a, .negInf => .fin a
  | .fin _, .posInf => .posInf
  | .fin a, .fin b => .fin (max a b)

/-- `f64::is_infinite`. -/
def FVal.isInfinite : FVal → Bool
  | .fin _ => false
  | _ => true

/-- Extract the finite value; the infinite cases are only ever read behind an
`isInfinite` guard, mirroring the source's `if v.is_infinite() { 0.0 } else { v }`. -/
def FVal.toQ : FVal → ℚ
  | .fin q => q
  | _ => 0

/-- The aggregator `ModelSummary::from_results` (src/types.rs, lines 106-153):
partition by `success`, success rate guarded against the empty input,
mean/min/max of throughput and mean TTFT over successful samples only, with
the infinite fold sentinels normalised to `0.0`. -/
def ModelSummary.from_results (model : String) (results : List BenchmarkResult) : ModelSummary :=
  let successful_results := results.filter (fun r => r.success)
  let total_tests := results.length
  let success_rate : ℚ :=
    if 0 < total_tests then (successful_results.length : ℚ) / (total_tests : ℚ) else 0
  let speeds : List ℚ := successful_results.map (fun r => r.tokens_per_second)
  let ttfts : List ℚ := successful_results.map (fun r => (r.time_to_first_token_ms : ℚ))
  let avg_tokens_per_second : ℚ :=
    if speeds.isEmpty then 0 else speeds.sum / (speeds.length : ℚ)
  let minF := speeds.foldl (fun acc x => FVal.fmin acc (FVal.fin x)) FVal.posInf
  let maxF := speeds.foldl (fun acc x => FVal.fmax acc (FVal.fin x)) FVal.negInf
  let avg_ttft_ms : ℚ :=
    if ttfts.isEmpty then 0 else ttfts.sum / (ttfts.length : ℚ)
  { model := model
    total_tests := total_tests
    success_rate := success_rate
    avg_tokens_per_second := avg_tokens_per_second
    min_tokens_per_second := if minF.isInfinite then 0 else minF.toQ
    max_tokens_per_second := if maxF.isInfinite then 0 else maxF.toQ
    avg_ttft_ms := avg_ttft_ms }

/-- One reduction step of Rust's `Iterator::max_by` over summaries, comparing
`avg_tokens_per_second`: `std::cmp::max_by` keeps the accumulator only when it
compares strictly greater, so the later element wins ties. -/
def winnerStep (acc y : ModelSummary) : ModelSummary :=
  if y.avg_tokens_per_second < acc.avg_tokens_per_second then acc else y

/-- The comparator's winner selection `calculate_winner`
(src/benchmark.rs, lines 98-112): filter to positive success rate, then
`max_by` on average throughput. -/
def calculate_winner (summaries : List ModelSummary) : Option ModelSummary :=
  if summaries.isEmpty then none
  else
    match summaries.filter (fun s => 0 < s.success_rate) with
    | [] => none
    | x :: xs => some (xs.foldl winnerStep x)

/-- The comparator's `calculate_performance_difference`
(src/benchmark.rs, lines 114-128). -/
def calculate_performance_difference (winner other : ModelSummary) : ℚ × ℚ :=
  let speed_diff : ℚ :=
    if 0 < other.avg_tokens_per_second then
      (winner.avg_tokens_per_second - other.avg_tokens_per_second)
        / other.avg_tokens_per_second * 100
    else 0
  let ttft_diff : ℚ :=
    if 0 < other.avg_ttft_ms then
      (other.avg_ttft_ms - winner.avg_ttft_ms) / other.avg_ttft_ms * 100
    else 0
  (speed_diff, ttft_diff)

/-- A parsed `/api/generate` response body (src/types.rs `OllamaGenerateResponse`). -/
structure OllamaGenerateResponse where
  model : String
  created_at : String
  response : String
  done : Bool
  context : Option (List Int)
  total_duration : Option Int
  load_duration : Option Int
  prompt_eval_count : Option Int
  prompt_eval_duration : Option Int
  eval_count : Option Int
  eval_duration : Option Int
deriving DecidableEq

/-- The observable outcome of one HTTP POST to `/api/generate`: either the
send itself failed (connect error, timeout, ...) or a response arrived with a
status code, a body text, and the result of parsing that body as JSON. -/
inductive HttpResult where
  | sendError : String → HttpResult
  | response : Nat → String → Except String OllamaGenerateResponse → HttpResult

/-- Substring test on character lists: Rust's `str::contains` with a string
pattern (the empty pattern matches everywhere). -/
def charsContain : List Char → List Char → Bool
  | [], needle => needle.isEmpty
  | h :: t, needle => needle.isPrefixOf (h :: t) || charsContain t needle

/-- Rust's `haystack.contains(needle)` on `String`s. -/
def strContains (haystack needle : String) : Bool :=
  charsContain haystack.data needle.data

/-- The `i32 as u32` wrapping cast applied to the server-reported token counts. -/
def u32OfInt (i : Int) : Nat := (i % 4294967296).toNat

/-- `reqwest::StatusCode::is_success`: status in 200..=299. -/
def statusIsSuccess (status : Nat) : Bool := decide (200 ≤ status ∧ status < 300)

/-- The response-classification and metric-derivation logic of
`OllamaClient::generate` (src/ollama.rs, lines 59-173), as a pure function of
the HTTP outcome. `elapsed_ms` stands for `start_time.elapsed()` at the point
the result is built and `timestamp` for `Utc::now()`; neither affects control
flow. A send error and a parse error each yield a failed sample; a non-2xx
status yields `ModelNotFound` when the status is 404 or the body contains the
substring "model", and a failed sample otherwise; a parsed 2xx response yields
a successful sample with TTFT and throughput derived from the server timings. -/
def generate (model prompt : String) (resp : HttpResult) (elapsed_ms timestamp : Nat) :
    Except BenchmarkError BenchmarkResult :=
  match resp with
  | .sendError e =>
      .ok { model := model, prompt := prompt, timestamp := timestamp, success := false
            tokens_per_second := 0, time_to_first_token_ms := 0
            total_duration_ms := elapsed_ms, prompt_tokens := 0, completion_tokens := 0
            error := some e }
  | .response status body parsed =>
      if statusIsSuccess status = false then
        if status == 404 || strContains body "model" then
          .error (.ModelNotFound model)
        else
          .ok { model := model, prompt := prompt, timestamp := timestamp, success := false
                tokens_per_second := 0, time_to_first_token_ms := 0
                total_duration_ms := elapsed_ms, prompt_tokens := 0, completion_tokens := 0
                error := some ("HTTP " ++ toString status ++ ": " ++ body) }
      else
        match parsed with
        | .error e =>
            .ok { model := model, prompt := prompt, timestamp := timestamp, success := false
                  tokens_per_second := 0, time_to_first_token_ms := 0
                  total_duration_ms := elapsed_ms, prompt_tokens := 0, completion_tokens := 0
                  error := some ("Failed to parse response: " ++ e) }
        | .ok o =>
            let prompt_eval_duration : Int := o.prompt_eval_duration.getD 0
            let eval_duration : Int := o.eval_duration.getD 0
            let prompt_tokens : Nat := u32OfInt (o.prompt_eval_count.getD 0)
            let completion_tokens : Nat := u32OfInt (o.eval_count.getD 0)
            let time_to_first_token_ms : Nat :=
              if 0 < prompt_eval_duration then prompt_eval_duration.toNat / 1000000 else 0
            let tokens_per_second : ℚ :=
              if 0 < eval_duration ∧ 0 < completion_tokens then
                (completion_tokens : ℚ) * 1000000000 / (eval_duration : ℚ)
              else 0
            .ok { model := model, prompt := prompt, timestamp := timestamp, success := true
                  tokens_per_second := tokens_per_second
                  time_to_first_token_ms := time_to_first_token_ms
                  total_duration_ms := elapsed_ms, prompt_tokens := prompt_tokens
                  completion_tokens := completion_tokens, error := none }

/-- Modelled from the spec: "only model not found (HTTP not-found or a
response body indicating the model is unknown) escalates" — the spec's own
notion of a response that indicates the requested model is unknown, used to
compare the specified escalation condition with the implemented one. -/
def indicatesUnknownModel (status : Nat) (body : String) : Bool :=
  status == 404 || strContains body "unknown model"

/-- `OllamaClient::validate_model` (src/ollama.rs, lines 175-178) against a
server whose `/api/tags` listing contains exactly `known`. -/
def validate_model (known : List String) (model : String) : Bool :=
  known.contains model

/-- Observable events of one run: the progress-reporter calls and the pacing
sleeps issued by the scheduler (src/benchmark.rs). -/
inductive Event where
  | print_info : String → Event
  | start_model : String → Nat → Nat → Event
  | update_progress : String → Nat → Nat → Event
  | complete_model : String → Event
  | sleep_ms : Nat → Event
deriving DecidableEq

/-- Recognises an iteration-progress event. -/
def isProgressEvent : Event → Bool
  | .update_progress _ _ _ => true
  | _ => false

/-- Recognises a model-complete event. -/
def isCompleteEvent : Event → Bool
  | .complete_model _ => true
  | _ => false

/-- A run outcome: either a `BenchmarkError` propagated out of the scheduler,
or an arithmetic-underflow panic (debug-build semantics of the `len - 1`
pacing guards). -/
inductive RunError where
  | benchErr : BenchmarkError → RunError
  | panicked : RunError
deriving DecidableEq

/-- Subtraction as in a debug Rust build: `none` models the underflow panic. -/
def checkedSub (a b : Nat) : Option Nat := if b ≤ a then some (a - b) else none

/-- The iteration loop body of `benchmark_single_model`
(src/benchmark.rs, lines 75-90) over the remaining iteration indices:
emit the progress event, call the generation oracle (`gen i` is the outcome of
the call made in iteration `i`), propagate a hard error, and sleep between
iterations (guarded by `iteration < iterations - 1`). -/
def iterLoop (gen : Nat → Except BenchmarkError BenchmarkResult) (model : String) (n : Nat) :
    List Nat → List Event × Except RunError (List BenchmarkResult)
  | [] => ([], .ok [])
  | i :: rest =>
      let ev := Event.update_progress model (i + 1) n
      match gen i with
      | .error e => ([ev], .error (.benchErr e))
      | .ok r =>
          match checkedSub n 1 with
          | none => ([ev], .error .panicked)
          | some k =>
              let sleeps : List Event := if i < k then [Event.sleep_ms 100] else []
              let (evs, res) := iterLoop gen model n rest
              (ev :: sleeps ++ evs, res.map (fun rs => r :: rs))

/-- `Benchmarker::benchmark_single_model` (src/benchmark.rs, lines 65-95):
start-model event, the iteration loop, and the complete-model event (emitted
only when the loop finishes without a hard error). -/
def benchmark_single_model (gen : Nat → Except BenchmarkError BenchmarkResult)
    (config : BenchmarkConfig) (model : String) (model_index total_models : Nat) :
    List Event × Except RunError (List BenchmarkResult) :=
  let startEv := Event.start_model model (model_index + 1) total_models
  let (evs, res) := iterLoop gen model config.iterations (List.range config.iterations)
  match res with
  | .error e => (startEv :: evs, .error e)
  | .ok rs => (startEv :: evs ++ [Event.complete_model model], .ok rs)

/-- The validation loop of `benchmark_models` (src/benchmark.rs, lines 34-38):
the first model the server does not know, if any. -/
def firstUnknown (known : List String) : List String → Option String
  | [] => none
  | m :: rest => if validate_model known m then firstUnknown known rest else some m

/-- The per-model loop of `benchmark_models` (src/benchmark.rs, lines 41-54)
over the enumerated models: run each model, propagate hard errors, and sleep
between models (guarded by `idx < models.len() - 1`, where `len` is the full
input length). -/
def modelLoop (gen : String → Nat → Except BenchmarkError BenchmarkResult)
    (config : BenchmarkConfig) (total len : Nat) :
    List (Nat × String) → List Event × Except RunError (List (String × List BenchmarkResult))
  | [] => ([], .ok [])
  | (idx, m) :: rest =>
      let (evs, res) := benchmark_single_model (gen m) config m idx total
      match res with
      | .error e => (evs, .error e)
      | .ok rs =>
          match checkedSub len 1 with
          | none => (evs, .error .panicked)
          | some k =>
              let sleeps : List Event := if idx < k then [Event.sleep_ms 500] else []
              let (evs2, res2) := modelLoop gen config total len rest
              (evs ++ sleeps ++ evs2, res2.map (fun acc => (m, rs) :: acc))

/-- `Benchmarker::benchmark_models` (src/benchmark.rs, lines 28-63) against a
server knowing exactly the models in `known`, with `gen m i` the outcome of
the generation call for model `m` in iteration `i`: info event, pre-flight
validation of every model (aborting with `ModelNotFound` on the first unknown
one), the per-model loop, then the summaries computed in input order. -/
def benchmark_models (known : List String)
    (gen : String → Nat → Except BenchmarkError BenchmarkResult)
    (config : BenchmarkConfig) (models : List String) :
    List Event × Except RunError (List ModelSummary) :=
  let infoEv := Event.print_info "Validating models..."
  match firstUnknown known models with
  | some m => ([infoEv], .error (.benchErr (.ModelNotFound m)))
  | none =>
      let (evs, res) := modelLoop gen config models.length models.length models.enum
      (infoEv :: evs,
       res.map (fun acc => acc.map (fun p => ModelSummary.from_results p.1 p.2)))

/-! ### Helper lemmas about the aggregator -/

/-- Unfolding: `total_tests` counts all samples. -/
lemma from_results_total_tests (m : String) (rs : List BenchmarkResult) :
    (ModelSummary.from_results m rs).total_tests = rs.length := rfl

/-- Unfolding: the guarded success-rate expression. -/
lemma from_results_success_rate (m : String) (rs : List BenchmarkResult) :
    (ModelSummary.from_results m rs).success_rate =
      if 0 < rs.length then
        (((rs.filter (fun r => r.success)).length : ℚ) / (rs.length : ℚ)) else 0 := rfl

/-- Unfolding: the guarded average-throughput expression. -/
lemma from_results_avg (m : String) (rs : List BenchmarkResult) :
    (ModelSummary.from_results m rs).avg_tokens_per_second =
      (if ((rs.filter (fun r => r.success)).map (fun r => r.tokens_per_second)).isEmpty then 0
       else ((rs.filter (fun r => r.success)).map (fun r => r.tokens_per_second)).sum /
         ((((rs.filter (fun r => r.success)).map (fun r => r.tokens_per_second)).length : ℚ))) := rfl

/-- Unfolding: the min-throughput fold with its sentinel normalisation. -/
lemma from_results_min (m : String) (rs : List BenchmarkResult) :
    (ModelSummary.from_results m rs).min_tokens_per_second =
      (let speeds := (rs.filter (fun r => r.success)).map (fun r => r.tokens_per_second)
       let minF := speeds.foldl (fun acc x => FVal.fmin acc (FVal.fin x)) FVal.posInf
       if minF.isInfinite then 0 else minF.toQ) := rfl

/-- Unfolding: the max-throughput fold with its sentinel normalisation. -/
lemma from_results_max (m : String) (rs : List BenchmarkResult) :
    (ModelSummary.from_results m rs).max_tokens_per_second =
      (let speeds := (rs.filter (fun r => r.success)).map (fun r => r.tokens_per_second)
       let maxF := speeds.foldl (fun acc x => FVal.fmax acc (FVal.fin x)) FVal.negInf
       if maxF.isInfinite then 0 else maxF.toQ) := rfl

/-- Unfolding: the guarded average-TTFT expression. -/
lemma from_results_avg_ttft (m : String) (rs : List BenchmarkResult) :
    (ModelSummary.from_results m rs).avg_ttft_ms =
      (if ((rs.filter (fun r => r.success)).map
            (fun r => (r.time_to_first_token_ms : ℚ))).isEmpty then 0
       else ((rs.filter (fun r => r.success)).map
            (fun r => (r.time_to_first_token_ms : ℚ))).sum /
         ((((rs.filter (fun r => r.success)).map
            (fun r => (r.time_to_first_token_ms : ℚ))).length : ℚ))) := rfl

/-- The min fold stays finite once seeded with a finite value. -/
lemma foldl_fmin_fin (l : List ℚ) (a : ℚ) :
    l.foldl (fun acc x => FVal.fmin acc (FVal.fin x)) (FVal.fin a) = FVal.fin (l.foldl min a) := by
  induction l generalizing a with
  | nil => rfl
  | cons x xs ih =>
      simp only [List.foldl_cons]
      exact ih (min a x)

/-- The max fold stays finite once seeded with a finite value. -/
lemma foldl_fmax_fin (l : List ℚ) (a : ℚ) :
    l.foldl (fun acc x => FVal.fmax acc (FVal.fin x)) (FVal.fin a) = FVal.fin (l.foldl max a) := by
  induction l generalizing a with
  | nil => rfl
  | cons x xs ih =>
      simp only [List.foldl_cons]
      exact ih (max a x)

/-- The min fold over a nonempty list of finite values collapses the sentinel. -/
lemma foldl_fmin_cons (x : ℚ) (xs : List ℚ) :
    (x :: xs).foldl (fun acc y => FVal.fmin acc (FVal.fin y)) FVal.posInf =
      FVal.fin (xs.foldl min x) := by
  simp only [List.foldl_cons]
  exact foldl_fmin_fin xs x

/-- The max fold over a nonempty list of finite values collapses the sentinel. -/
lemma foldl_fmax_cons (x : ℚ) (xs : List ℚ) :
    (x :: xs).foldl (fun acc y => FVal.fmax acc (FVal.fin y)) FVal.negInf =
      FVal.fin (xs.foldl max x) := by
  simp only [List.foldl_cons]
  exact foldl_fmax_fin xs x

/-- A left min-fold is bounded by its seed. -/
lemma foldl_min_le_init (l : List ℚ) (a : ℚ) : l.foldl min a ≤ a := by
  induction l generalizing a with
  | nil => exact le_refl a
  | cons x xs ih => exact le_trans (ih (min a x)) (min_le_left a x)

/-- A left min-fold is bounded by every list element. -/
lemma foldl_min_le_mem (l : List ℚ) (a x : ℚ) (hx : x ∈ l) : l.foldl min a ≤ x := by
  induction l generalizing a with
  | nil => cases hx
  | cons y ys ih =>
      rcases List.mem_cons.mp hx with h | h
      · subst h
        exact le_trans (foldl_min_le_init ys (min a x)) (min_le_right a x)
      · exact ih (min a y) h

/-- A left max-fold dominates its seed. -/
lemma le_foldl_max_init (l : List ℚ) (a : ℚ) : a ≤ l.foldl max a := by
  induction l generalizing a with
  | nil => exact le_refl a
  | cons x xs ih => exact le_trans (le_max_left a x) (ih (max a x))

/-- A left max-fold dominates every list element. -/
lemma le_foldl_max_mem (l : List ℚ) (a x : ℚ) (hx : x ∈ l) : x ≤ l.foldl max a := by
  induction l generalizing a with
  | nil => cases hx
  | cons y ys ih =>
      rcases List.mem_cons.mp hx with h | h
      · subst h
        exact le_trans (le_max_right a x) (le_foldl_max_init ys (max a x))
      · exact ih (max a y) h

/-- A uniform lower bound on the elements bounds the sum from below. -/
lemma mul_length_le_sum (l : List ℚ) (c : ℚ) (h : ∀ x ∈ l, c ≤ x) :
    c * (l.length : ℚ) ≤ l.sum := by
  induction l with
  | nil => simp
  | cons x xs ih =>
      have hx := h x (List.mem_cons_self x xs)
      have hxs := ih (fun y hy => h y (List.mem_cons_of_mem x hy))
      simp only [List.sum_cons, List.length_cons]
      push_cast
      nlinarith [hx, hxs]

/-- A uniform upper bound on the elements bounds the sum from above. -/
lemma sum_le_mul_length (l : List ℚ) (c : ℚ) (h : ∀ x ∈ l, x ≤ c) :
    l.sum ≤ c * (l.length : ℚ) := by
  induction l with
  | nil => simp
  | cons x xs ih =>
      have hx := h x (List.mem_cons_self x xs)
      have hxs := ih (fun y hy => h y (List.mem_cons_of_mem x hy))
      simp only [List.sum_cons, List.length_cons]
      push_cast
      nlinarith [hx, hxs]

/-! ### Concrete samples used by witnesses (mirroring the source's unit tests) -/

/-- A successful sample with 25 tok/s and 200 ms TTFT. -/
def okSample : BenchmarkResult :=
  { model := "m", prompt := "p", timestamp := 0, success := true, tokens_per_second := 25
    time_to_first_token_ms := 200, total_duration_ms := 1000, prompt_tokens := 10
    completion_tokens := 25, error := none }

/-- A successful sample with 30 tok/s and 150 ms TTFT. -/
def okSample2 : BenchmarkResult :=
  { okSample with tokens_per_second := 30, time_to_first_token_ms := 150 }

/-- A failed sample with zeroed metrics. -/
def failSample : BenchmarkResult :=
  { okSample with success := false, tokens_per_second := 0, time_to_first_token_ms := 0, error := some "Failed" }

/-! ### C3, C4, C5: totality and invariants of the aggregator -/

/-- C3: for every sequence of Samples, including the empty one, the aggregator
is total: the produced `ModelSummary` has `total_tests` equal to the input
length and `success_rate` in `[0, 1]`. (Float fields are modelled as exact
rationals, so no NaN/Infinity value exists in the model; the explicit
normalisation of the infinite fold sentinels to `0.0` is proved in the
zero-success theorem.) -/
theorem C3_aggregation_totality (m : String) (rs : List BenchmarkResult) :
    (ModelSummary.from_results m rs).total_tests = rs.length ∧
    0 ≤ (ModelSummary.from_results m rs).success_rate ∧
    (ModelSummary.from_results m rs).success_rate ≤ 1 := by
  refine ⟨from_results_total_tests m rs, ?_, ?_⟩
  · rw [from_results_success_rate]
    split
    · exact div_nonneg (by positivity) (by positivity)
    · exact le_refl 0
  · rw [from_results_success_rate]
    split
    · rename_i h
      refine (div_le_one (by exact_mod_cast h)).mpr ?_
      exact_mod_cast List.length_filter_le _ rs
    · exact zero_le_one

/-- C4: whenever at least one sample succeeded, the summary satisfies
`min_tokens_per_second ≤ avg_tokens_per_second ≤ max_tokens_per_second`;
when no sample succeeded, all three throughput fields are `0.0`. -/
theorem C4_min_avg_max_ordering (m : String) (rs : List BenchmarkResult) :
    ((rs.filter (fun r => r.success)) ≠ [] →
       (ModelSummary.from_results m rs).min_tokens_per_second ≤
         (ModelSummary.from_results m rs).avg_tokens_per_second ∧
       (ModelSummary.from_results m rs).avg_tokens_per_second ≤
         (ModelSummary.from_results m rs).max_tokens_per_second) ∧
    ((rs.filter (fun r => r.success)) = [] →
       (ModelSummary.from_results m rs).avg_tokens_per_second = 0 ∧
       (ModelSummary.from_results m rs).min_tokens_per_second = 0 ∧
       (ModelSummary.from_results m rs).max_tokens_per_second = 0) := by
  constructor
  · intro hne
    cases hsp : (rs.filter (fun r => r.success)).map (fun r => r.tokens_per_second) with
    | nil => exact absurd (List.map_eq_nil_iff.mp hsp) hne
    | cons x xs =>
        have hlenpos : (0 : ℚ) < ((x :: xs).length : ℚ) := by
          exact_mod_cast Nat.succ_pos xs.length
        have hminle : ∀ t ∈ x :: xs, xs.foldl min x ≤ t := by
          intro t ht
          rcases List.mem_cons.mp ht with h | h
          · subst h; exact foldl_min_le_init xs t
          · exact foldl_min_le_mem xs x t h
        have hmaxle : ∀ t ∈ x :: xs, t ≤ xs.foldl max x := by
          intro t ht
          rcases List.mem_cons.mp ht with h | h
          · subst h; exact le_foldl_max_init xs t
          · exact le_foldl_max_mem xs x t h
        have havg : (ModelSummary.from_results m rs).avg_tokens_per_second =
            (x :: xs).sum / (((x :: xs).length : ℚ)) := by
          rw [from_results_avg, hsp, if_neg (by simp)]
        have hmin : (ModelSummary.from_results m rs).min_tokens_per_second =
            xs.foldl min x := by
          rw [from_results_min]
          simp only [hsp]
          rw [foldl_fmin_cons]
          simp [FVal.isInfinite, FVal.toQ]
        have hmax : (ModelSummary.from_results m rs).max_tokens_per_second =
            xs.foldl max x := by
          rw [from_results_max]
          simp only [hsp]
          rw [foldl_fmax_cons]
          simp [FVal.isInfinite, FVal.toQ]
        constructor
        · rw [hmin, havg]
          exact (le_div_iff₀ hlenpos).mpr (mul_length_le_sum (x :: xs) _ hminle)
        · rw [havg, hmax]
          exact (div_le_iff₀ hlenpos).mpr (sum_le_mul_length (x :: xs) _ hmaxle)
  · intro h
    refine ⟨?_, ?_, ?_⟩
    · rw [from_results_avg]; simp [h]
    · rw [from_results_min]; simp [h, FVal.isInfinite]
    · rw [from_results_max]; simp [h, FVal.isInfinite]

/-- Witness for C4 at the three-sample input of the source's own unit test. -/
theorem C4_min_avg_max_ordering_witness :
    (ModelSummary.from_results "m" [okSample, okSample2, failSample]).min_tokens_per_second ≤
      (ModelSummary.from_results "m" [okSample, okSample2, failSample]).avg_tokens_per_second ∧
    (ModelSummary.from_results "m" [okSample, okSample2, failSample]).avg_tokens_per_second ≤
      (ModelSummary.from_results "m" [okSample, okSample2, failSample]).max_tokens_per_second :=
  (C4_min_avg_max_ordering "m" [okSample, okSample2, failSample]).1 (by decide)

/-- C5: when every sample failed (or the input is empty), the summary has
zero success rate and all throughput/TTFT statistics equal to `0.0` — the
infinite empty-fold sentinels never surface. -/
theorem C5_zero_success_summary (m : String) (rs : List BenchmarkResult)
    (h : ∀ r ∈ rs, r.success = false) :
    (ModelSummary.from_results m rs).success_rate = 0 ∧
    (ModelSummary.from_results m rs).avg_tokens_per_second = 0 ∧
    (ModelSummary.from_results m rs).min_tokens_per_second = 0 ∧
    (ModelSummary.from_results m rs).max_tokens_per_second = 0 ∧
    (ModelSummary.from_results m rs).avg_ttft_ms = 0 := by
  have hfil : rs.filter (fun r => r.success) = [] :=
    List.filter_eq_nil_iff.mpr (fun r hr => by simp [h r hr])
  refine ⟨?_, ?_, ?_, ?_, ?_⟩
  · rw [from_results_success_rate]; simp [hfil]
  · rw [from_results_avg]; simp [hfil]
  · rw [from_results_min]; simp [hfil, FVal.isInfinite]
  · rw [from_results_max]; simp [hfil, FVal.isInfinite]
  · rw [from_results_avg_ttft]; simp [hfil]

/-- Witness for C5 at a one-element all-failed input. -/
theorem C5_zero_success_summary_witness :
    (ModelSummary.from_results "m" [failSample]).success_rate = 0 ∧
    (ModelSummary.from_results "m" [failSample]).avg_tokens_per_second = 0 ∧
    (ModelSummary.from_results "m" [failSample]).min_tokens_per_second = 0 ∧
    (ModelSummary.from_results "m" [failSample]).max_tokens_per_second = 0 ∧
    (ModelSummary.from_results "m" [failSample]).avg_ttft_ms = 0 :=
  C5_zero_success_summary "m" [failSample] (by decide)

/-! ### C6: order-independence of the aggregator -/

/-- A left fold with a right-commutative step is invariant under permutation
of the folded list. -/
lemma foldl_perm_eq {α β : Type} {f : β → α → β}
    (hf : ∀ b a₁ a₂, f (f b a₁) a₂ = f (f b a₂) a₁)
    {l₁ l₂ : List α} (p : l₁.Perm l₂) : ∀ b, l₁.foldl f b = l₂.foldl f b := by
  induction p with
  | nil => intro b; rfl
  | cons x _ ih => intro b; simp only [List.foldl_cons]; exact ih (f b x)
  | swap x y l => intro b; simp only [List.foldl_cons]; rw [hf]
  | trans _ _ ih₁ ih₂ => intro b; rw [ih₁, ih₂]

/-- The min-fold step is right-commutative. -/
lemma fmin_step_right_comm (b : FVal) (a₁ a₂ : ℚ) :
    FVal.fmin (FVal.fmin b (FVal.fin a₁)) (FVal.fin a₂) =
      FVal.fmin (FVal.fmin b (FVal.fin a₂)) (FVal.fin a₁) := by
  cases b <;> simp [FVal.fmin, min_comm, min_left_comm]

/-- The max-fold step is right-commutative. -/
lemma fmax_step_right_comm (b : FVal) (a₁ a₂ : ℚ) :
    FVal.fmax (FVal.fmax b (FVal.fin a₁)) (FVal.fin a₂) =
      FVal.fmax (FVal.fmax b (FVal.fin a₂)) (FVal.fin a₁) := by
  cases b <;> simp [FVal.fmax, max_comm, max_left_comm]

/-- C6: the aggregator is deterministic and order-independent — permuting the
input samples leaves every field of the resulting `ModelSummary` unchanged.
(Float arithmetic is modelled as exact rational arithmetic, in which the
summation is commutative.) -/
theorem C6_aggregator_order_independent (m : String) (rs₁ rs₂ : List BenchmarkResult)
    (h : rs₁.Perm rs₂) :
    ModelSummary.from_results m rs₁ = ModelSummary.from_results m rs₂ := by
  have hfil := h.filter (fun r => r.success)
  have hsp := hfil.map (fun r => r.tokens_per_second)
  have htt := hfil.map (fun r => (r.time_to_first_token_ms : ℚ))
  have hspempty : ((rs₁.filter (fun r => r.success)).map
      (fun r => r.tokens_per_second)).isEmpty = ((rs₂.filter (fun r => r.success)).map
      (fun r => r.tokens_per_second)).isEmpty := by
    cases h1 : (rs₁.filter (fun r => r.success)).map (fun r => r.tokens_per_second) with
    | nil =>
        cases h2 : (rs₂.filter (fun r => r.success)).map (fun r => r.tokens_per_second) with
        | nil => rfl
        | cons y ys => rw [h1, h2] at hsp; exact absurd hsp.length_eq (by simp)
    | cons x xs =>
        cases h2 : (rs₂.filter (fun r => r.success)).map (fun r => r.tokens_per_second) with
        | nil => rw [h1, h2] at hsp; exact absurd hsp.length_eq (by simp)
        | cons y ys => rfl
  have httempty : ((rs₁.filter (fun r => r.success)).map
      (fun r => (r.time_to_first_token_ms : ℚ))).isEmpty =
      ((rs₂.filter (fun r => r.success)).map
      (fun r => (r.time_to_first_token_ms : ℚ))).isEmpty := by
    cases h1 : (rs₁.filter (fun r => r.success)).map
        (fun r => (r.time_to_first_token_ms : ℚ)) with
    | nil =>
        cases h2 : (rs₂.filter (fun r => r.success)).map
            (fun r => (r.time_to_first_token_ms : ℚ)) with
        | nil => rfl
        | cons y ys => rw [h1, h2] at htt; exact absurd htt.length_eq (by simp)
    | cons x xs =>
        cases h2 : (rs₂.filter (fun r => r.success)).map
            (fun r => (r.time_to_first_token_ms : ℚ)) with
        | nil => rw [h1, h2] at htt; exact absurd htt.length_eq (by simp)
        | cons y ys => rfl
  show ModelSummary.mk _ _ _ _ _ _ _ = ModelSummary.mk _ _ _ _ _ _ _
  congr 1
  · exact h.length_eq
  · rw [h.length_eq, hfil.length_eq]
  · rw [hspempty, hsp.sum_eq, hsp.length_eq]
  · rw [foldl_perm_eq fmin_step_right_comm hsp]
  · rw [foldl_perm_eq fmax_step_right_comm hsp]
  · rw [httempty, htt.sum_eq, htt.length_eq]

/-- Witness for C6 at a concrete two-element permutation. -/
theorem C6_aggregator_order_independent_witness :
    ModelSummary.from_results "m" [okSample, failSample] =
      ModelSummary.from_results "m" [failSample, okSample] :=
  C6_aggregator_order_independent "m" [okSample, failSample] [failSample, okSample]
    (List.Perm.swap failSample okSample [])

/-! ### C7: relative performance difference -/

/-- C7 (amended): the comparator returns the relative speed (resp. TTFT)
percentage difference when the other summary's average throughput (resp.
TTFT) is strictly positive, and `0.0` otherwise — in particular when it is
zero — and the difference of a summary with itself is `(0.0, 0.0)`. -/
theorem C7_relative_difference (w o : ModelSummary) :
    (0 < o.avg_tokens_per_second →
       (calculate_performance_difference w o).1 =
         (w.avg_tokens_per_second - o.avg_tokens_per_second)
           / o.avg_tokens_per_second * 100) ∧
    (¬ 0 < o.avg_tokens_per_second → (calculate_performance_difference w o).1 = 0) ∧
    (0 < o.avg_ttft_ms →
       (calculate_performance_difference w o).2 =
         (o.avg_ttft_ms - w.avg_ttft_ms) / o.avg_ttft_ms * 100) ∧
    (¬ 0 < o.avg_ttft_ms → (calculate_performance_difference w o).2 = 0) ∧
    calculate_performance_difference o o = (0, 0) := by
  refine ⟨?_, ?_, ?_, ?_, ?_⟩
  · intro h; simp [calculate_performance_difference, h]
  · intro h; simp [calculate_performance_difference, h]
  · intro h; simp [calculate_performance_difference, h]
  · intro h; simp [calculate_performance_difference, h]
  · by_cases h1 : 0 < o.avg_tokens_per_second <;>
      by_cases h2 : 0 < o.avg_ttft_ms <;>
      simp [calculate_performance_difference, h1, h2]

/-- A summary with avg throughput 30 tok/s and avg TTFT 150 ms. -/
def summaryFast : ModelSummary :=
  { model := "winner", total_tests := 5, success_rate := 1, avg_tokens_per_second := 30
    min_tokens_per_second := 25, max_tokens_per_second := 35, avg_ttft_ms := 150 }

/-- A summary with avg throughput 25 tok/s and avg TTFT 200 ms. -/
def summarySlow : ModelSummary :=
  { model := "other", total_tests := 5, success_rate := 1, avg_tokens_per_second := 25
    min_tokens_per_second := 20, max_tokens_per_second := 30, avg_ttft_ms := 200 }

/-- A (syntactically well-formed) summary with negative average throughput. -/
def summaryNeg : ModelSummary :=
  { model := "neg", total_tests := 1, success_rate := 1, avg_tokens_per_second := -1
    min_tokens_per_second := -1, max_tokens_per_second := -1, avg_ttft_ms := 100 }

/-- Counterexample to C7 as stated: for `other.avg_tokens_per_second = -1`
(nonzero), the claim's formula gives `-200`, yet the code returns `0.0` —
the code's zero fallback triggers on `other.avg_tps ≤ 0`, not exactly on
`other.avg_tps == 0`. -/
theorem C7_counterexample_negative_throughput :
    summaryNeg.avg_tokens_per_second ≠ 0 ∧
    (summaryFast.avg_tokens_per_second - summaryNeg.avg_tokens_per_second)
        / summaryNeg.avg_tokens_per_second * 100 = -3100 ∧
    (calculate_performance_difference summaryFast summaryNeg).1 = 0 := by
  refine ⟨by norm_num [summaryNeg], by norm_num [summaryFast, summaryNeg], ?_⟩
  norm_num [calculate_performance_difference, summaryNeg]

/-- Witness for C7 at the source's own unit-test pair: 30 vs 25 tok/s and
150 vs 200 ms give `(20, 25)`. -/
theorem C7_relative_difference_witness :
    (calculate_performance_difference summaryFast summarySlow).1 =
      (summaryFast.avg_tokens_per_second - summarySlow.avg_tokens_per_second)
        / summarySlow.avg_tokens_per_second * 100 ∧
    (calculate_performance_difference summaryFast summarySlow).2 =
      (summarySlow.avg_ttft_ms - summaryFast.avg_ttft_ms)
        / summarySlow.avg_ttft_ms * 100 :=
  ⟨(C7_relative_difference summaryFast summarySlow).1 (by norm_num [summarySlow]),
   (C7_relative_difference summaryFast summarySlow).2.2.1 (by norm_num [summarySlow])⟩

/-! ### C1: winner selection -/

/-- The `max_by` fold picks an element of the list that is maximal in
`avg_tokens_per_second` and strictly greater than everything after it —
i.e. the last element attaining the maximum. -/
lemma foldl_winnerStep_last_max (ys : List ModelSummary) :
    ∀ acc : ModelSummary, ∃ l₁ l₂ : List ModelSummary,
      acc :: ys = l₁ ++ (ys.foldl winnerStep acc) :: l₂ ∧
      (∀ t ∈ acc :: ys,
        t.avg_tokens_per_second ≤ (ys.foldl winnerStep acc).avg_tokens_per_second) ∧
      (∀ t ∈ l₂,
        t.avg_tokens_per_second < (ys.foldl winnerStep acc).avg_tokens_per_second) := by
  induction ys with
  | nil =>
      intro acc
      exact ⟨[], [], rfl, by simp, by simp⟩
  | cons y ys ih =>
      intro acc
      by_cases h : y.avg_tokens_per_second < acc.avg_tokens_per_second
      · have hstep : winnerStep acc y = acc := if_pos h
        obtain ⟨l₁, l₂, heq, hub, hlt⟩ := ih acc
        cases l₁ with
        | nil =>
            simp only [List.nil_append] at heq
            have hacc : ys.foldl winnerStep acc = acc := (List.cons.injEq _ _ _ _ ▸ heq).1.symm
            have hl₂ : l₂ = ys := ((List.cons.injEq _ _ _ _).mp heq).2.symm
            refine ⟨[], y :: ys, ?_, ?_, ?_⟩
            · simp only [List.foldl_cons, hstep, List.nil_append]
              rw [hacc]
            · intro t ht
              simp only [List.foldl_cons, hstep]
              rcases List.mem_cons.mp ht with rfl | ht
              · exact hub t (List.mem_cons_self t ys)
              · rcases List.mem_cons.mp ht with rfl | ht
                · rw [hacc]; exact le_of_lt h
                · exact hub t (List.mem_cons_of_mem acc ht)
            · intro t ht
              simp only [List.foldl_cons, hstep]
              rcases List.mem_cons.mp ht with rfl | ht
              · rw [hacc]; exact h
              · exact hl₂ ▸ hlt t (hl₂ ▸ ht)
        | cons a l₁' =>
            have ha : a = acc := (((List.cons.injEq _ _ _ _).mp
              (by simpa using heq)).1).symm
            have hys : ys = l₁' ++ (ys.foldl winnerStep acc) :: l₂ :=
              ((List.cons.injEq _ _ _ _).mp (by simpa using heq)).2
            refine ⟨acc :: y :: l₁', l₂, ?_, ?_, ?_⟩
            · simp only [List.foldl_cons, hstep, List.cons_append]
              rw [← hys]
            · intro t ht
              simp only [List.foldl_cons, hstep]
              rcases List.mem_cons.mp ht with rfl | ht
              · exact hub t (List.mem_cons_self t ys)
              · rcases List.mem_cons.mp ht with rfl | ht
                · exact le_trans (le_of_lt h) (hub acc (List.mem_cons_self acc ys))
                · exact hub t (List.mem_cons_of_mem acc ht)
            · intro t ht
              simp only [List.foldl_cons, hstep]
              exact hlt t ht
      · have hstep : winnerStep acc y = y := if_neg h
        obtain ⟨l₁, l₂, heq, hub, hlt⟩ := ih y
        refine ⟨acc :: l₁, l₂, ?_, ?_, ?_⟩
        · simp only [List.foldl_cons, hstep, List.cons_append]
          rw [← heq]
        · intro t ht
          simp only [List.foldl_cons, hstep]
          rcases List.mem_cons.mp ht with rfl | ht
          · exact le_trans (le_of_not_lt h) (hub y (List.mem_cons_self y ys))
          · exact hub t ht
        · intro t ht
          simp only [List.foldl_cons, hstep]
          exact hlt t ht

/-- C1 (amended): among the summaries with positive success rate,
`calculate_winner` returns the one with maximal `avg_tokens_per_second`,
breaking ties in favour of the LAST summary attaining the maximum (every
later candidate is strictly slower); it returns `None` when the input is
empty or no summary has positive success rate. -/
theorem C1_winner_last_max_wins (summaries : List ModelSummary) :
    (summaries.filter (fun s => 0 < s.success_rate) = [] →
       calculate_winner summaries = none) ∧
    (summaries.filter (fun s => 0 < s.success_rate) ≠ [] →
       ∃ w l₁ l₂, calculate_winner summaries = some w ∧
         summaries.filter (fun s => 0 < s.success_rate) = l₁ ++ w :: l₂ ∧
         (∀ t ∈ summaries.filter (fun s => 0 < s.success_rate),
           t.avg_tokens_per_second ≤ w.avg_tokens_per_second) ∧
         (∀ t ∈ l₂, t.avg_tokens_per_second < w.avg_tokens_per_second)) := by
  constructor
  · intro hfil
    cases hs : summaries with
    | nil => rfl
    | cons s ss =>
        rw [hs] at hfil
        simp only [calculate_winner, List.isEmpty_cons, hfil]
        rfl
  · intro hne
    cases hfil : summaries.filter (fun s => 0 < s.success_rate) with
    | nil => exact absurd hfil hne
    | cons x xs =>
        have hsumne : summaries ≠ [] := by
          intro hnil
          rw [hnil] at hfil
          exact List.cons_ne_nil x xs hfil.symm
        obtain ⟨l₁, l₂, heq, hub, hlt⟩ := foldl_winnerStep_last_max xs x
        refine ⟨xs.foldl winnerStep x, l₁, l₂, ?_, ?_, ?_, hlt⟩
        · cases hs : summaries with
          | nil => exact absurd hs hsumne
          | cons s ss =>
              rw [hs] at hfil
              simp only [calculate_winner, List.isEmpty_cons, hfil]
              rfl
        · exact heq
        · exact hub

/-- Two summaries with equal positive throughput and positive success rate,
differing in name. -/
def tieFirst : ModelSummary :=
  { model := "first", total_tests := 1, success_rate := 1, avg_tokens_per_second := 10
    min_tokens_per_second := 10, max_tokens_per_second := 10, avg_ttft_ms := 5 }

/-- The later of the two tied summaries. -/
def tieSecond : ModelSummary :=
  { tieFirst with model := "second" }

/-- Counterexample to C1 as stated: on a tie in `avg_tokens_per_second`
between two summaries with positive success rate, the code returns the LAST
maximal summary, not the first one in encounter order (Rust's
`Iterator::max_by` keeps the later of two equal elements). -/
theorem C1_counterexample_first_max_loses :
    0 < tieFirst.success_rate ∧ 0 < tieSecond.success_rate ∧
    tieFirst.avg_tokens_per_second = tieSecond.avg_tokens_per_second ∧
    tieFirst ≠ tieSecond ∧
    calculate_winner [tieFirst, tieSecond] = some tieSecond := by
  refine ⟨by norm_num [tieFirst], by norm_num [tieFirst, tieSecond], rfl, by decide, rfl⟩

/-- Witness for C1 at the source's own unit-test pair: with throughputs 25
and 30, the 30 tok/s summary wins. -/
theorem C1_winner_last_max_wins_witness :
    ∃ w l₁ l₂, calculate_winner [summarySlow, summaryFast] = some w ∧
      [summarySlow, summaryFast].filter (fun s => 0 < s.success_rate) = l₁ ++ w :: l₂ ∧
      (∀ t ∈ [summarySlow, summaryFast].filter (fun s => 0 < s.success_rate),
        t.avg_tokens_per_second ≤ w.avg_tokens_per_second) ∧
      (∀ t ∈ l₂, t.avg_tokens_per_second < w.avg_tokens_per_second) :=
  (C1_winner_last_max_wins [summarySlow, summaryFast]).2 (by decide)

/-! ### C2: error classification of a generation attempt -/

/-- C2 (amended): for a non-2xx response, `generate` escalates to a hard
`ModelNotFound` error exactly when the status is 404 OR the body contains the
substring "model" (a strictly broader test than a body indicating the model
is unknown); every other non-2xx response is returned as a successfully
constructed failed sample (success=false, metrics zeroed, error set), so the
caller's iteration loop continues. -/
theorem C2_generate_error_classification (model prompt body : String)
    (status elapsed ts : Nat) (parsed : Except String OllamaGenerateResponse)
    (hfail : statusIsSuccess status = false) :
    ((status = 404 ∨ strContains body "model" = true) →
       generate model prompt (HttpResult.response status body parsed) elapsed ts =
         Except.error (BenchmarkError.ModelNotFound model)) ∧
    (status ≠ 404 → strContains body "model" = false →
       generate model prompt (HttpResult.response status body parsed) elapsed ts =
         Except.ok { model := model, prompt := prompt, timestamp := ts, success := false,
                     tokens_per_second := 0, time_to_first_token_ms := 0,
                     total_duration_ms := elapsed, prompt_tokens := 0, completion_tokens := 0,
                     error := some ("HTTP " ++ toString status ++ ": " ++ body) }) := by
  constructor
  · intro h
    have hb : (status == 404 || strContains body "model") = true := by
      rcases h with h | h
      · simp [h]
      · simp [h]
    simp [generate, hfail, hb]
  · intro h1 h2
    have hb : (status == 404 || strContains body "model") = false := by
      simp [h1, h2]
    simp [generate, hfail, hb]

/-- Counterexample to C2 as stated: a 500 response whose body is
"model overloaded" does not indicate the model is unknown (it is not a 404
and does not contain "unknown model"), yet `generate` escalates it to the
run-aborting `ModelNotFound` instead of returning a failed sample, because
the body contains the substring "model". -/
theorem C2_counterexample_substring_escalation :
    indicatesUnknownModel 500 "model overloaded" = false ∧
    statusIsSuccess 500 = false ∧
    generate "m" "p" (HttpResult.response 500 "model overloaded" (Except.error "e")) 7 0 =
      Except.error (BenchmarkError.ModelNotFound "m") := by
  refine ⟨by decide, by decide, rfl⟩

/-- Witness for C2 at a concrete 500 response whose body lacks "model":
the call returns a failed sample, not an error. -/
theorem C2_generate_error_classification_witness :
    generate "m" "p" (HttpResult.response 500 "oops" (Except.error "e")) 7 0 =
      Except.ok { model := "m", prompt := "p", timestamp := 0, success := false,
                  tokens_per_second := 0, time_to_first_token_ms := 0,
                  total_duration_ms := 7, prompt_tokens := 0, completion_tokens := 0,
                  error := some ("HTTP " ++ toString 500 ++ ": " ++ "oops") } :=
  (C2_generate_error_classification "m" "p" "oops" 500 7 0 (Except.error "e")
    (by decide)).2 (by decide) (by decide)

/-! ### C8, C9, C10: scheduler behaviour -/

/-- When every generation call in the remaining iteration list succeeds, the
iteration loop emits exactly the progress events (with their inter-iteration
sleeps) for those iterations and returns one sample per iteration. -/
lemma iterLoop_all_ok (gen : Nat → Except BenchmarkError BenchmarkResult) (model : String)
    (n : Nat) (l : List Nat)
    (hok : ∀ i ∈ l, ∃ r, gen i = Except.ok r) (hlt : ∀ i ∈ l, i < n) :
    ∃ rs : List BenchmarkResult,
      iterLoop gen model n l =
        (l.flatMap (fun i => Event.update_progress model (i + 1) n ::
            (if i < n - 1 then [Event.sleep_ms 100] else [])),
         Except.ok rs) ∧ rs.length = l.length := by
  induction l with
  | nil => exact ⟨[], rfl, rfl⟩
  | cons i rest ih =>
      obtain ⟨r, hr⟩ := hok i (List.mem_cons_self i rest)
      have hn : 1 ≤ n := Nat.lt_of_le_of_lt (Nat.zero_le i) (hlt i (List.mem_cons_self i rest))
      have hcs : checkedSub n 1 = some (n - 1) := by simp [checkedSub, hn]
      obtain ⟨rs, hloop, hlen⟩ := ih (fun j hj => hok j (List.mem_cons_of_mem i hj))
        (fun j hj => hlt j (List.mem_cons_of_mem i hj))
      refine ⟨r :: rs, ?_, by simp [hlen]⟩
      simp [iterLoop, hr, hcs, hloop, Except.map]

/-- Closed form of a fully successful single-model run: start event, the
iteration block, complete event, and one sample per configured iteration. -/
lemma benchmark_single_model_all_ok (gen : Nat → Except BenchmarkError BenchmarkResult)
    (config : BenchmarkConfig) (model : String) (idx total : Nat)
    (h : ∀ i < config.iterations, ∃ r, gen i = Except.ok r) :
    ∃ rs : List BenchmarkResult,
      benchmark_single_model gen config model idx total =
        (Event.start_model model (idx + 1) total ::
          ((List.range config.iterations).flatMap (fun i =>
              Event.update_progress model (i + 1) config.iterations ::
                (if i < config.iterations - 1 then [Event.sleep_ms 100] else [])) ++
           [Event.complete_model model]),
         Except.ok rs) ∧ rs.length = config.iterations := by
  obtain ⟨rs, hloop, hlen⟩ := iterLoop_all_ok gen model config.iterations
    (List.range config.iterations)
    (fun i hi => h i (List.mem_range.mp hi)) (fun i hi => List.mem_range.mp hi)
  refine ⟨rs, ?_, by simp [hlen]⟩
  simp [benchmark_single_model, hloop]

/-- The iteration block contains exactly the progress events, in range order. -/
lemma filter_progress_block (model : String) (n : Nat) (l : List Nat) :
    (l.flatMap (fun i => Event.update_progress model (i + 1) n ::
        (if i < n - 1 then [Event.sleep_ms 100] else []))).filter isProgressEvent =
      l.map (fun i => Event.update_progress model (i + 1) n) := by
  induction l with
  | nil => rfl
  | cons i rest ih =>
      by_cases hi : i < n - 1 <;>
        simp [hi, isProgressEvent, ih, List.filter_append]

/-- The iteration block contains no model-complete event. -/
lemma filter_complete_block (model : String) (n : Nat) (l : List Nat) :
    (l.flatMap (fun i => Event.update_progress model (i + 1) n ::
        (if i < n - 1 then [Event.sleep_ms 100] else []))).filter isCompleteEvent = [] := by
  induction l with
  | nil => rfl
  | cons i rest ih =>
      by_cases hi : i < n - 1 <;>
        simp [hi, isCompleteEvent, ih, List.filter_append]

/-- C9: when every generation call for a model yields a sample, the run of
that model emits exactly `iterations` progress events — `current` running
from 1 to `iterations` in strictly increasing (range) order with
`total = iterations` — and exactly one model-complete event, which comes
after every other event; the loop returns one sample per iteration. -/
theorem C9_progress_event_sequence (gen : Nat → Except BenchmarkError BenchmarkResult)
    (config : BenchmarkConfig) (model : String) (idx total : Nat)
    (h : ∀ i < config.iterations, ∃ r, gen i = Except.ok r) :
    ((benchmark_single_model gen config model idx total).1.filter isProgressEvent =
       (List.range config.iterations).map
         (fun i => Event.update_progress model (i + 1) config.iterations)) ∧
    ((benchmark_single_model gen config model idx total).1.filter isCompleteEvent =
       [Event.complete_model model]) ∧
    ((benchmark_single_model gen config model idx total).1.getLast? =
       some (Event.complete_model model)) ∧
    (∃ rs, (benchmark_single_model gen config model idx total).2 = Except.ok rs ∧
       rs.length = config.iterations) := by
  obtain ⟨rs, heq, hlen⟩ := benchmark_single_model_all_ok gen config model idx total h
  refine ⟨?_, ?_, ?_, ⟨rs, ?_, hlen⟩⟩
  · rw [heq]
    simp [List.filter_append, filter_progress_block, isProgressEvent, isCompleteEvent]
  · rw [heq]
    simp [List.filter_append, filter_complete_block, isProgressEvent, isCompleteEvent]
  · rw [heq]
    show (Event.start_model model (idx + 1) total :: (_ ++ [Event.complete_model model])).getLast?
      = some (Event.complete_model model)
    rw [← List.cons_append]
    exact List.getLast?_concat _
  · rw [heq]

/-- A generation oracle that always succeeds. -/
def genAllOk : Nat → Except BenchmarkError BenchmarkResult := fun _ => Except.ok okSample

/-- Witness for C9 with the default configuration's 5 iterations: the five
progress events 1..5 out of 5, in order. -/
theorem C9_progress_event_sequence_witness :
    (benchmark_single_model genAllOk BenchmarkConfig.default "m" 0 1).1.filter
        isProgressEvent =
      [Event.update_progress "m" 1 5, Event.update_progress "m" 2 5,
       Event.update_progress "m" 3 5, Event.update_progress "m" 4 5,
       Event.update_progress "m" 5 5] :=
  ((C9_progress_event_sequence genAllOk BenchmarkConfig.default "m" 0 1
      (fun _ _ => ⟨okSample, rfl⟩)).1).trans (by decide)

/-- When some model fails validation, `firstUnknown` finds an unknown model. -/
lemma firstUnknown_of_exists (known : List String) (models : List String)
    (h : ∃ m ∈ models, validate_model known m = false) :
    ∃ m₀, m₀ ∈ models ∧ validate_model known m₀ = false ∧
      firstUnknown known models = some m₀ := by
  induction models with
  | nil => obtain ⟨m, hm, _⟩ := h; cases hm
  | cons m rest ih =>
      by_cases hv : validate_model known m = true
      · obtain ⟨m', hm', hval⟩ := h
        rcases List.mem_cons.mp hm' with rfl | hmem
        · rw [hv] at hval; cases hval
        · obtain ⟨m₀, h1, h2, h3⟩ := ih ⟨m', hmem, hval⟩
          exact ⟨m₀, List.mem_cons_of_mem m h1, h2, by simp [firstUnknown, hv, h3]⟩
      · have hv' : validate_model known m = false := by simpa using hv
        exact ⟨m, List.mem_cons_self m rest, hv', by simp [firstUnknown, hv']⟩

/-- C8: if any requested model is unknown to the server, the whole run aborts
with `ModelNotFound` naming an unknown model, the event trace contains only
the validation info message (no start/progress/complete events), and no
samples are collected for any model. -/
theorem C8_preflight_aborts_run (known : List String)
    (gen : String → Nat → Except BenchmarkError BenchmarkResult)
    (config : BenchmarkConfig) (models : List String)
    (h : ∃ m ∈ models, validate_model known m = false) :
    ∃ m₀, m₀ ∈ models ∧ validate_model known m₀ = false ∧
      benchmark_models known gen config models =
        ([Event.print_info "Validating models..."],
         Except.error (RunError.benchErr (BenchmarkError.ModelNotFound m₀))) := by
  obtain ⟨m₀, hmem, hval, hfu⟩ := firstUnknown_of_exists known models h
  exact ⟨m₀, hmem, hval, by simp [benchmark_models, hfu]⟩

/-- Witness for C8 at the spec's Scenario 3: models `["known", "missing"]`
against a server knowing only "known". -/
theorem C8_preflight_aborts_run_witness :
    ∃ m₀, m₀ ∈ ["known", "missing"] ∧ validate_model ["known"] m₀ = false ∧
      benchmark_models ["known"] (fun _ _ => Except.ok okSample) BenchmarkConfig.default
          ["known", "missing"] =
        ([Event.print_info "Validating models..."],
         Except.error (RunError.benchErr (BenchmarkError.ModelNotFound m₀))) :=
  C8_preflight_aborts_run ["known"] (fun _ _ => Except.ok okSample) BenchmarkConfig.default
    ["known", "missing"] ⟨"missing", by decide, by decide⟩

/-- C10: on an empty model list the run returns `Ok` with an empty summary
sequence, emitting only the validation info message — no existence checks, no
generation requests, no model-level events, no sleeps, and no panic (the
`models.len() - 1` pacing guard sits inside the per-model loop, whose body
never executes). -/
theorem C10_empty_model_list (known : List String)
    (gen : String → Nat → Except BenchmarkError BenchmarkResult)
    (config : BenchmarkConfig) :
    benchmark_models known gen config [] =
      ([Event.print_info "Validating models..."], Except.ok []) := rfl
